import Mathlib

/-!
Shallow embedding of `library_manager.py`, a JSON-backed personal library
catalog.  Each Python function is translated into a Lean definition over an
explicit file-state type; Python exceptions become an error sum, and the
save side effect is modelled by returning the new file state.
-/

set_option maxHeartbeats 1000000

namespace LibraryManager

/-- Models one step of Python's `int()` decimal scan: the numeric value of a
digit character `'0'..'9'`, or `none` for any other character. -/
def charToDigit? (c : Char) : Option Nat :=
  if '0' ≤ c ∧ c ≤ '9' then some (c.toNat - '0'.toNat) else none

/-- Left fold of `charToDigit?` over a character list, accumulating the
decimal value; fails on the first non-digit character. -/
def foldDigits : Nat → List Char → Option Nat
  | a, [] => some a
  | a, c :: cs =>
    match charToDigit? c with
    | some d => foldDigits (a * 10 + d) cs
    | none => none

/-- Models Python's `int(s)` on the decimal strings this program produces and
stores: an optional leading minus sign followed by at least one digit.
(Python's `int()` additionally tolerates surrounding whitespace, a leading
plus and underscore separators; none of those forms ever occur in this
program's own output, so the model rejects them.) Returns `none` where
Python raises `ValueError`. -/
def pyIntOfStr (s : String) : Option Int :=
  match s.data with
  | [] => none
  | c :: cs =>
    if c = '-' then
      if cs.isEmpty then none
      else (foldDigits 0 cs).map (fun n => -(n : Int))
    else (foldDigits 0 (c :: cs)).map (fun n => (n : Int))

/-- Models Python's `str(i)` on `int`: decimal digits with a leading minus
sign for negative values.  This is exactly Lean's `Int.repr`, unfolded so
that it reduces by kernel computation. -/
def pyStrOfInt : Int → String
  | .ofNat m => (Nat.toDigits 10 m).asString
  | .negSucc m => "-" ++ (Nat.toDigits 10 (m + 1)).asString

/-- The `Book` class of `library_manager.py`: id, title, author, year and
status fields.  Python ints are modelled as `Int`, Python strs as `String`. -/
structure Book where
  id : Int
  title : String
  author : String
  year : Int
  status : String
deriving DecidableEq

/-- The default status literal used by `Book.__init__` ("в наличии",
the "available" label). -/
def defaultStatus : String := "в наличии"

/-- The "checked out" status literal ("выдана"). -/
def checkedOutStatus : String := "выдана"

/-- The dictionary produced by `Book.to_dict`: all five values are strings
(`id` and `year` are stored via `str(...)`). -/
structure BookDict where
  id : String
  title : String
  author : String
  year : String
  status : String
deriving DecidableEq

/-- Translation of `Book.to_dict`: `id` and `year` are rendered with
`str(...)`, the other fields are copied. -/
def Book.to_dict (b : Book) : BookDict :=
  { id := pyStrOfInt b.id
    title := b.title
    author := b.author
    year := pyStrOfInt b.year
    status := b.status }

/-- Translation of `Book.from_dict`: parses `id` and `year` with `int(...)`
and copies the other fields.  `none` models the `ValueError` Python raises
when `int(...)` fails. -/
def Book.from_dict (d : BookDict) : Option Book :=
  match pyIntOfStr d.id, pyIntOfStr d.year with
  | some i, some y =>
    some { id := i, title := d.title, author := d.author, year := y, status := d.status }
  | _, _ => none

/-- The Python exceptions that can escape the library-store functions:
`ValueError` from the status validation in `update_book_status`
(the spec's `InvalidStatusError`), `KeyError` / `ValueError` escaping
`Book.from_dict` during a load (the spec's `MalformedRecordError`), and any
`OSError` other than `FileNotFoundError`, e.g. `PermissionError`, which
propagates uncaught out of `open` (the spec's `StorageError`). -/
inductive PyError where
  | invalidStatus
  | malformedRecord
  | storageError
deriving DecidableEq

/-- The observable state of the storage file: absent (`open` raises
`FileNotFoundError`), present but not valid JSON (`json.load` raises
`JSONDecodeError`), unreadable for another reason (`open` raises e.g.
`PermissionError`), or a parsed JSON array of record dictionaries. -/
inductive FileContents where
  | missing
  | jsonInvalid
  | ioError
  | stored (entries : List BookDict)
deriving DecidableEq

/-- Decoding of a loaded JSON array, one `Book.from_dict` per entry, failing
as soon as any entry fails (the list comprehension in `load_library`). -/
def decodeBooks : List BookDict → Option (List Book)
  | [] => some []
  | d :: ds =>
    match Book.from_dict d, decodeBooks ds with
    | some b, some bs => some (b :: bs)
    | _, _ => none

/-- Translation of `load_library`: `FileNotFoundError` and `JSONDecodeError`
are caught and yield `[]`; any other I/O failure propagates; a `ValueError`
escaping `Book.from_dict` also propagates (it is not in the `except`
clause). -/
def load_library : FileContents → Except PyError (List Book)
  | .missing => .ok []
  | .jsonInvalid => .ok []
  | .ioError => .error .storageError
  | .stored entries =>
    match decodeBooks entries with
    | some books => .ok books
    | none => .error .malformedRecord

/-- Translation of `save_library`: overwrites the file with the JSON dump of
`book.to_dict()` for every book, in order. -/
def save_library (books : List Book) : FileContents :=
  .stored (books.map Book.to_dict)

/-- Models `max((book.id for book in books), default=0)`: the maximum id in
the list, or `0` for an empty list. -/
def maxIdDefault : List Book → Int
  | [] => 0
  | b :: bs => bs.foldl (fun acc x => max acc x.id) b.id

/-- Translation of `add_book`: load, compute `new_id` as max id plus one,
append a book with the default status, save, and return the new book
(paired here with the new file state that models the save). -/
def add_book (title author : String) (year : Int) (fs : FileContents) :
    Except PyError (Book × FileContents) :=
  match load_library fs with
  | .error e => .error e
  | .ok books =>
    let new_id := maxIdDefault books + 1
    let new_book : Book :=
      { id := new_id, title := title, author := author, year := year, status := defaultStatus }
    .ok (new_book, save_library (books ++ [new_book]))

/-- Translation of `remove_book`: load, filter out the matching id; if the
length is unchanged return `False` without saving (the file state is
returned untouched), otherwise save the filtered list and return `True`. -/
def remove_book (book_id : Int) (fs : FileContents) :
    Except PyError (Bool × FileContents) :=
  match load_library fs with
  | .error e => .error e
  | .ok books =>
    let filtered_books := books.filter (fun b => b.id != book_id)
    if filtered_books.length = books.length then
      .ok (false, fs)
    else
      .ok (true, save_library filtered_books)

/-- Case-insensitive substring test: models Python's
`needle.lower() in hay.lower()` (character-wise `Char.toLower`, i.e. ASCII
case folding, standing in for `str.lower`). -/
def isSubstrCI (needle hay : String) : Bool :=
  decide (needle.data.map Char.toLower <:+: hay.data.map Char.toLower)

/-- Translation of `search_books`: load, then apply the three filters in
sequence, each guarded by Python truthiness of its argument (`None` and the
empty string are falsy for `title` / `author`; `None` and `0` are falsy for
`year`).  Read-only: no save is performed and no file state is returned. -/
def search_books (fs : FileContents) (title author : Option String := none)
    (year : Option Int := none) : Except PyError (List Book) :=
  match load_library fs with
  | .error e => .error e
  | .ok books =>
    let results := books
    let results :=
      match title with
      | some t => if t = "" then results else results.filter (fun b => isSubstrCI t b.title)
      | none => results
    let results :=
      match author with
      | some a => if a = "" then results else results.filter (fun b => isSubstrCI a b.author)
      | none => results
    let results :=
      match year with
      | some y => if y = 0 then results else results.filter (fun b => b.year == y)
      | none => results
    .ok results

/-- Translation of `list_books`: just `load_library`. -/
def list_books (fs : FileContents) : Except PyError (List Book) :=
  load_library fs

/-- The `for` loop of `update_book_status`: set the status of the first book
whose id matches and return the updated list; `none` when no book matches
(the loop falls through to `return False`). -/
def setFirstStatus (book_id : Int) (status : String) : List Book → Option (List Book)
  | [] => none
  | b :: bs =>
    if b.id = book_id then some ({ b with status := status } :: bs)
    else (setFirstStatus book_id status bs).map (b :: ·)

/-- Translation of `update_book_status`: the status is validated against the
two allowed literals before the file is touched (`ValueError`, modelled as
`PyError.invalidStatus`, is raised first); then load, update the first
matching book, save and return `True`, or return `False` without saving. -/
def update_book_status (book_id : Int) (status : String) (fs : FileContents) :
    Except PyError (Bool × FileContents) :=
  if status = defaultStatus ∨ status = checkedOutStatus then
    match load_library fs with
    | .error e => .error e
    | .ok books =>
      match setFirstStatus book_id status books with
      | some books' => .ok (true, save_library books')
      | none => .ok (false, fs)
  else
    .error .invalidStatus

/-- Proof-side helper: the value obtained by appending the decimal digits of
`n` to an accumulator `a` (so `pushDec a n = a * 10 ^ digits + n`). -/
def pushDec (a n : Nat) : Nat :=
  if h : n < 10 then a * 10 + n
  else pushDec a (n / 10) * 10 + n % 10
termination_by n
decreasing_by exact Nat.div_lt_self (by omega) (by omega)

/-- The book built by `add_book` on a loaded collection. -/
def newBook (title author : String) (year : Int) (books : List Book) : Book :=
  { id := maxIdDefault books + 1, title := title, author := author, year := year
    status := defaultStatus }

/-- Specification-side title filter: a provided, non-empty title must be a
case-insensitive substring of the book's title; an absent or empty title
(Python falsy) is not applied. -/
def matchesTitle : Option String → Book → Bool
  | none, _ => true
  | some t, b => if t = "" then true else isSubstrCI t b.title

/-- Specification-side author filter, analogous to `matchesTitle`. -/
def matchesAuthor : Option String → Book → Bool
  | none, _ => true
  | some a, b => if a = "" then true else isSubstrCI a b.author

/-- Specification-side year filter: a provided, non-zero year must equal the
book's year exactly; an absent or zero year (Python falsy) is not applied. -/
def matchesYear : Option Int → Book → Bool
  | none, _ => true
  | some y, b => if y = 0 then true else b.year == y

/-- One user action of the interactive loop, as dispatched by `main`. -/
inductive LibOp where
  | add (title author : String) (year : Int)
  | remove (book_id : Int)
  | updateStatus (book_id : Int) (status : String)

/-- Effect of one user action on the storage file.  `main` catches every
exception an operation raises and goes back to the menu, so on an error the
file is left untouched. -/
def applyOp (op : LibOp) (fs : FileContents) : FileContents :=
  match op with
  | .add title author year =>
    match add_book title author year fs with
    | .ok (_, fs') => fs'
    | .error _ => fs
  | .remove book_id =>
    match remove_book book_id fs with
    | .ok (_, fs') => fs'
    | .error _ => fs
  | .updateStatus book_id status =>
    match update_book_status book_id status fs with
    | .ok (_, fs') => fs'
    | .error _ => fs

/-- Effect of a whole sequence of user actions, applied left to right. -/
def runOps (ops : List LibOp) (fs : FileContents) : FileContents :=
  ops.foldl (fun s op => applyOp op s) fs

/-! ### Decimal round trip: `pyIntOfStr` is a left inverse of `pyStrOfInt` -/

theorem pushDec_zero (n : Nat) : pushDec 0 n = n := by
  induction n using Nat.strong_induction_on with
  | _ n ih =>
    rw [pushDec]
    split
    · omega
    · rw [ih (n / 10) (Nat.div_lt_self (by omega) (by omega))]
      omega

theorem charToDigit?_digitChar {d : Nat} (hd : d < 10) :
    charToDigit? (Nat.digitChar d) = some d := by
  interval_cases d <;> decide

theorem toDigitsCore_all_digits (fuel : Nat) :
    ∀ n ds, (∀ c ∈ ds, (charToDigit? c).isSome) →
      ∀ c ∈ Nat.toDigitsCore 10 fuel n ds, (charToDigit? c).isSome := by
  induction fuel with
  | zero => intro n ds h c hc; exact h c hc
  | succ fuel ih =>
    intro n ds h c hc
    simp only [Nat.toDigitsCore] at hc
    have hdig : (charToDigit? (Nat.digitChar (n % 10))).isSome := by
      rw [charToDigit?_digitChar (Nat.mod_lt _ (by omega))]; rfl
    split at hc
    · rcases List.mem_cons.mp hc with h1 | h2
      · exact h1 ▸ hdig
      · exact h c h2
    · refine ih (n / 10) (Nat.digitChar (n % 10) :: ds) ?_ c hc
      intro c' hc'
      rcases List.mem_cons.mp hc' with h1 | h2
      · exact h1 ▸ hdig
      · exact h c' h2

theorem toDigitsCore_ne_nil_of_ne_nil (fuel : Nat) :
    ∀ n ds, ds ≠ [] → Nat.toDigitsCore 10 fuel n ds ≠ [] := by
  induction fuel with
  | zero => intro n ds h; exact h
  | succ fuel ih =>
    intro n ds _
    simp only [Nat.toDigitsCore]
    split
    · simp
    · exact ih (n / 10) _ (by simp)

theorem toDigits_ne_nil (n : Nat) : Nat.toDigits 10 n ≠ [] := by
  simp only [Nat.toDigits, Nat.toDigitsCore]
  split
  · simp
  · exact toDigitsCore_ne_nil_of_ne_nil _ _ _ (by simp)

theorem foldDigits_toDigitsCore (fuel : Nat) :
    ∀ n ds a, n < fuel →
      foldDigits a (Nat.toDigitsCore 10 fuel n ds) = foldDigits (pushDec a n) ds := by
  induction fuel with
  | zero => intro n ds a h; omega
  | succ fuel ih =>
    intro n ds a h
    simp only [Nat.toDigitsCore]
    split
    · have hlt : n < 10 := by omega
      have hmod : n % 10 = n := Nat.mod_eq_of_lt hlt
      rw [foldDigits, charToDigit?_digitChar (Nat.mod_lt _ (by omega))]
      rw [pushDec]
      simp [hlt, hmod]
    · have hge : ¬ n < 10 := by omega
      have hlt : n / 10 < fuel := by omega
      rw [ih (n / 10) _ a hlt]
      rw [foldDigits, charToDigit?_digitChar (Nat.mod_lt _ (by omega))]
      conv_rhs => rw [pushDec]
      simp [hge]

theorem foldDigits_toDigits (n : Nat) : foldDigits 0 (Nat.toDigits 10 n) = some n := by
  rw [Nat.toDigits, foldDigits_toDigitsCore (n + 1) n [] 0 (by omega), pushDec_zero]
  rfl

theorem toDigits_head_digit (m : Nat) :
    ∃ c cs, Nat.toDigits 10 m = c :: cs ∧ (charToDigit? c).isSome := by
  cases h : Nat.toDigits 10 m with
  | nil => exact absurd h (toDigits_ne_nil m)
  | cons c cs =>
    refine ⟨c, cs, rfl, ?_⟩
    have hall := toDigitsCore_all_digits (m + 1) m [] (by simp)
    rw [← Nat.toDigits, h] at hall
    exact hall c (by simp)

theorem pyIntOfStr_pyStrOfInt (i : Int) : pyIntOfStr (pyStrOfInt i) = some i := by
  cases i with
  | ofNat m =>
    obtain ⟨c, cs, hcons, hdig⟩ := toDigits_head_digit m
    have hne : c ≠ '-' := by
      intro hc
      rw [hc] at hdig
      simp [charToDigit?] at hdig
    simp only [pyStrOfInt, pyIntOfStr]
    rw [show (List.asString (Nat.toDigits 10 m)).data = Nat.toDigits 10 m from rfl, hcons]
    simp only [if_neg hne]
    rw [← hcons, foldDigits_toDigits]
    rfl
  | negSucc m =>
    simp only [pyStrOfInt, pyIntOfStr]
    have hdata : ("-" ++ (List.asString (Nat.toDigits 10 (m + 1)))).data
        = '-' :: Nat.toDigits 10 (m + 1) := by
      rw [String.data_append]
      rfl
    rw [hdata]
    have hnil : (Nat.toDigits 10 (m + 1)).isEmpty = false := by
      cases h : Nat.toDigits 10 (m + 1) with
      | nil => exact absurd h (toDigits_ne_nil _)
      | cons c cs => rfl
    simp only [if_pos rfl, hnil]
    rw [foldDigits_toDigits]
    simp [Int.negSucc_eq]

/-- Per-record serialization round trip: `from_dict` undoes `to_dict`. -/
theorem from_dict_to_dict (b : Book) : Book.from_dict (Book.to_dict b) = some b := by
  cases b with
  | mk id title author year status =>
    simp [Book.to_dict, Book.from_dict, pyIntOfStr_pyStrOfInt]

theorem decodeBooks_map_to_dict (books : List Book) :
    decodeBooks (books.map Book.to_dict) = some books := by
  induction books with
  | nil => rfl
  | cons b bs ih => simp [decodeBooks, from_dict_to_dict, ih]

/-- Collection-level round trip: loading a saved collection returns it
unchanged. -/
theorem load_save (books : List Book) :
    load_library (save_library books) = .ok books := by
  simp [load_library, save_library, decodeBooks_map_to_dict]

/-! ### Properties of `maxIdDefault` -/

theorem le_foldl_max (l : List Book) :
    ∀ a : Int, a ≤ l.foldl (fun acc x => max acc x.id) a := by
  induction l with
  | nil => intro a; simp
  | cons b bs ih =>
    intro a
    calc a ≤ max a b.id := le_max_left _ _
    _ ≤ bs.foldl (fun acc x => max acc x.id) (max a b.id) := ih _

theorem mem_le_foldl_max (l : List Book) :
    ∀ a : Int, ∀ b ∈ l, b.id ≤ l.foldl (fun acc x => max acc x.id) a := by
  induction l with
  | nil => intro a b hb; simp at hb
  | cons x xs ih =>
    intro a b hb
    rcases List.mem_cons.mp hb with h | h
    · subst h
      calc b.id ≤ max a b.id := le_max_right _ _
      _ ≤ xs.foldl (fun acc x => max acc x.id) (max a b.id) := le_foldl_max _ _
    · exact ih _ b h

theorem foldl_max_cases (l : List Book) :
    ∀ a : Int, l.foldl (fun acc x => max acc x.id) a = a ∨
      ∃ b ∈ l, l.foldl (fun acc x => max acc x.id) a = b.id := by
  induction l with
  | nil => intro a; left; rfl
  | cons x xs ih =>
    intro a
    rcases ih (max a x.id) with h | ⟨b, hb, he⟩
    · rcases le_total a x.id with hle | hle
      · right
        exact ⟨x, List.mem_cons_self _ _, by rw [List.foldl_cons, h, max_eq_right hle]⟩
      · left
        rw [List.foldl_cons, h, max_eq_left hle]
    · right
      exact ⟨b, List.mem_cons_of_mem _ hb, he⟩

theorem le_maxIdDefault {books : List Book} {b : Book} (hb : b ∈ books) :
    b.id ≤ maxIdDefault books := by
  cases books with
  | nil => simp at hb
  | cons x xs =>
    rcases List.mem_cons.mp hb with h | h
    · subst h
      exact le_foldl_max xs b.id
    · exact mem_le_foldl_max xs x.id b h

theorem maxIdDefault_mem {books : List Book} (h : books ≠ []) :
    ∃ b ∈ books, maxIdDefault books = b.id := by
  cases books with
  | nil => exact absurd rfl h
  | cons x xs =>
    rcases foldl_max_cases xs x.id with he | ⟨b, hb, he⟩
    · exact ⟨x, List.mem_cons_self _ _, he⟩
    · exact ⟨b, List.mem_cons_of_mem _ hb, he⟩

theorem id_lt_new_id {books : List Book} {b : Book} (hb : b ∈ books) :
    b.id < maxIdDefault books + 1 :=
  lt_of_le_of_lt (le_maxIdDefault hb) (by omega)

/-! ### Characterization of the operations -/

theorem add_book_eq {fs : FileContents} {books : List Book}
    (h : load_library fs = .ok books) (title author : String) (year : Int) :
    add_book title author year fs =
      .ok (newBook title author year books,
        save_library (books ++ [newBook title author year books])) := by
  simp [add_book, h, newBook]

theorem filter_ne_of_split {l1 l2 : List Book} {b0 : Book} {i : Int}
    (h1 : ∀ b ∈ l1, b.id ≠ i) (h2 : ∀ b ∈ l2, b.id ≠ i) (h0 : b0.id = i) :
    (l1 ++ b0 :: l2).filter (fun b => b.id != i) = l1 ++ l2 := by
  rw [List.filter_append, List.filter_cons]
  have : (b0.id != i) = false := by simp [h0]
  rw [this]
  rw [List.filter_eq_self.mpr (fun b hb => by simp [h1 b hb]),
    List.filter_eq_self.mpr (fun b hb => by simp [h2 b hb])]
  simp

theorem nodup_ids_split {l1 l2 : List Book} {b0 : Book}
    (h : (((l1 ++ b0 :: l2).map Book.id)).Nodup) :
    (∀ b ∈ l1, b.id ≠ b0.id) ∧ (∀ b ∈ l2, b.id ≠ b0.id) := by
  rw [List.map_append, List.map_cons, List.nodup_append] at h
  obtain ⟨-, h2, hdisj⟩ := h
  constructor
  · intro b hb heq
    exact hdisj (List.mem_map_of_mem Book.id hb) (by simp [heq])
  · intro b hb heq
    rw [List.nodup_cons] at h2
    exact h2.1 (heq ▸ List.mem_map_of_mem Book.id hb)

theorem remove_book_not_found {fs : FileContents} {books : List Book} {i : Int}
    (h : load_library fs = .ok books) (hnone : ∀ b ∈ books, b.id ≠ i) :
    remove_book i fs = .ok (false, fs) := by
  have hfil : books.filter (fun b => b.id != i) = books :=
    List.filter_eq_self.mpr (fun b hb => by simp [hnone b hb])
  simp [remove_book, h, hfil]

theorem remove_book_found {fs : FileContents} {l1 l2 : List Book} {b0 : Book} {i : Int}
    (h : load_library fs = .ok (l1 ++ b0 :: l2))
    (h1 : ∀ b ∈ l1, b.id ≠ i) (h2 : ∀ b ∈ l2, b.id ≠ i) (h0 : b0.id = i) :
    remove_book i fs = .ok (true, save_library (l1 ++ l2)) := by
  have hfil := filter_ne_of_split h1 h2 h0
  have hlen : (l1 ++ l2).length ≠ (l1 ++ b0 :: l2).length := by
    simp only [List.length_append, List.length_cons]
    omega
  simp [remove_book, h, hfil, hlen]

theorem setFirstStatus_found {l1 l2 : List Book} {b0 : Book} {i : Int} (st : String)
    (h1 : ∀ b ∈ l1, b.id ≠ i) (h0 : b0.id = i) :
    setFirstStatus i st (l1 ++ b0 :: l2) = some (l1 ++ { b0 with status := st } :: l2) := by
  induction l1 with
  | nil => simp [setFirstStatus, h0]
  | cons b bs ih =>
    have hne : ¬ b.id = i := h1 b (List.mem_cons_self _ _)
    rw [List.cons_append, setFirstStatus, if_neg hne,
      ih (fun x hx => h1 x (List.mem_cons_of_mem _ hx))]
    rfl

theorem setFirstStatus_not_found {books : List Book} {i : Int} (st : String)
    (h : ∀ b ∈ books, b.id ≠ i) :
    setFirstStatus i st books = none := by
  induction books with
  | nil => rfl
  | cons b bs ih =>
    rw [setFirstStatus, if_neg (h b (List.mem_cons_self _ _)),
      ih (fun x hx => h x (List.mem_cons_of_mem _ hx))]
    rfl

theorem setFirstStatus_map_id {i : Int} {st : String} :
    ∀ {books books' : List Book}, setFirstStatus i st books = some books' →
      books'.map Book.id = books.map Book.id := by
  intro books
  induction books with
  | nil => intro books' h; simp [setFirstStatus] at h
  | cons b bs ih =>
    intro books' h
    rw [setFirstStatus] at h
    split at h
    · cases h
      simp
    · rcases Option.map_eq_some'.mp h with ⟨bs', hbs', rfl⟩
      simp [ih hbs']

theorem update_book_status_invalid {fs : FileContents} {i : Int} {st : String}
    (h1 : st ≠ defaultStatus) (h2 : st ≠ checkedOutStatus) :
    update_book_status i st fs = .error .invalidStatus := by
  rw [update_book_status, if_neg (by tauto)]

theorem update_book_status_found {fs : FileContents} {l1 l2 : List Book} {b0 : Book}
    {i : Int} {st : String} (hv : st = defaultStatus ∨ st = checkedOutStatus)
    (h : load_library fs = .ok (l1 ++ b0 :: l2))
    (h1 : ∀ b ∈ l1, b.id ≠ i) (h0 : b0.id = i) :
    update_book_status i st fs =
      .ok (true, save_library (l1 ++ { b0 with status := st } :: l2)) := by
  simp only [update_book_status, if_pos hv, h, setFirstStatus_found st h1 h0]

theorem update_book_status_not_found {fs : FileContents} {books : List Book}
    {i : Int} {st : String} (hv : st = defaultStatus ∨ st = checkedOutStatus)
    (h : load_library fs = .ok books) (hnone : ∀ b ∈ books, b.id ≠ i) :
    update_book_status i st fs = .ok (false, fs) := by
  simp only [update_book_status, if_pos hv, h, setFirstStatus_not_found st hnone]

/-! ### Invariant preservation over operation sequences -/

theorem applyOp_nodup (op : LibOp) {fs : FileContents} {books : List Book}
    (hload : load_library fs = .ok books) (hnd : (books.map Book.id).Nodup) :
    ∃ books', load_library (applyOp op fs) = .ok books' ∧ (books'.map Book.id).Nodup := by
  cases op with
  | add t a y =>
    refine ⟨books ++ [newBook t a y books], ?_, ?_⟩
    · simp [applyOp, add_book_eq hload, load_save]
    · rw [List.map_append, List.nodup_append]
      refine ⟨hnd, List.nodup_singleton _, ?_⟩
      intro x hx hx'
      simp only [List.map_cons, List.map_nil, List.mem_singleton] at hx'
      obtain ⟨b, hb, rfl⟩ := List.mem_map.mp hx
      have := id_lt_new_id hb
      rw [hx'] at this
      simp [newBook] at this
  | remove i =>
    by_cases hlen : (books.filter (fun b => b.id != i)).length = books.length
    · have hr : remove_book i fs = .ok (false, fs) := by
        simp [remove_book, hload, hlen]
      exact ⟨books, by simp [applyOp, hr, hload], hnd⟩
    · have hr : remove_book i fs =
          .ok (true, save_library (books.filter (fun b => b.id != i))) := by
        simp only [remove_book, hload]
        rw [if_neg hlen]
      refine ⟨books.filter (fun b => b.id != i), ?_, ?_⟩
      · simp [applyOp, hr, load_save]
      · exact hnd.sublist ((List.filter_sublist books).map Book.id)
  | updateStatus i st =>
    by_cases hv : st = defaultStatus ∨ st = checkedOutStatus
    · cases hset : setFirstStatus i st books with
      | none =>
        have hu : update_book_status i st fs = .ok (false, fs) := by
          simp [update_book_status, hv, hload, hset]
        exact ⟨books, by simp [applyOp, hu, hload], hnd⟩
      | some books' =>
        have hu : update_book_status i st fs = .ok (true, save_library books') := by
          simp [update_book_status, hv, hload, hset]
        refine ⟨books', by simp [applyOp, hu, load_save], ?_⟩
        rw [setFirstStatus_map_id hset]
        exact hnd
    · have hu : update_book_status i st fs = .error .invalidStatus :=
        update_book_status_invalid (fun h => hv (Or.inl h)) (fun h => hv (Or.inr h))
      exact ⟨books, by simp [applyOp, hu, hload], hnd⟩

theorem runOps_ok_nodup (ops : List LibOp) :
    ∀ {fs : FileContents} {books : List Book},
      load_library fs = .ok books → (books.map Book.id).Nodup →
      ∃ books', load_library (runOps ops fs) = .ok books' ∧ (books'.map Book.id).Nodup := by
  induction ops with
  | nil => intro fs books h hn; exact ⟨books, h, hn⟩
  | cons op ops ih =>
    intro fs books h hn
    obtain ⟨books', h', hn'⟩ := applyOp_nodup op h hn
    exact ih h' hn'

/-! ### Search characterization -/

theorem search_books_eq {fs : FileContents} {books : List Book}
    (h : load_library fs = .ok books) (title author : Option String) (year : Option Int) :
    search_books fs title author year =
      .ok (books.filter (fun b =>
        matchesTitle title b && matchesAuthor author b && matchesYear year b)) := by
  simp only [search_books, h]
  rcases title with _ | t <;> rcases author with _ | a <;> rcases year with _ | y <;>
    simp only [matchesTitle, matchesAuthor, matchesYear] <;>
    ((try split_ifs) <;>
      simp_all [List.filter_filter, Bool.and_comm, Bool.and_left_comm, Bool.and_assoc])

/-! ### Claims -/

/-- C1: for every stored collection, `add_book` assigns the new record an id
equal to one more than the maximum id among the existing records, or `1`
when the collection is empty. -/
theorem C1_add_id_max_plus_one (fs : FileContents) (books : List Book)
    (title author : String) (year : Int) (h : load_library fs = .ok books) :
    ∃ nb fs', add_book title author year fs = .ok (nb, fs') ∧
      (books = [] → nb.id = 1) ∧
      (books ≠ [] → ∃ b ∈ books, nb.id = b.id + 1 ∧ ∀ b' ∈ books, b'.id ≤ b.id) := by
  refine ⟨newBook title author year books, _, add_book_eq h title author year, ?_, ?_⟩
  · rintro rfl; rfl
  · intro hne
    obtain ⟨b, hb, he⟩ := maxIdDefault_mem hne
    exact ⟨b, hb, by simp [newBook, he], fun b' hb' => he ▸ le_maxIdDefault hb'⟩

/-- Witness for C1 at the one-element collection `[{id := 5, ...}]`. -/
theorem C1_add_id_max_plus_one_witness :
    load_library (save_library [⟨5, "x", "y", 2000, defaultStatus⟩]) =
      .ok [⟨5, "x", "y", 2000, defaultStatus⟩] ∧
    (∃ nb fs',
      add_book "T" "A" 2024 (save_library [⟨5, "x", "y", 2000, defaultStatus⟩]) =
        .ok (nb, fs') ∧
      (([⟨5, "x", "y", 2000, defaultStatus⟩] : List Book) = [] → nb.id = 1) ∧
      (([⟨5, "x", "y", 2000, defaultStatus⟩] : List Book) ≠ [] →
        ∃ b ∈ ([⟨5, "x", "y", 2000, defaultStatus⟩] : List Book), nb.id = b.id + 1 ∧
          ∀ b' ∈ ([⟨5, "x", "y", 2000, defaultStatus⟩] : List Book), b'.id ≤ b.id)) :=
  ⟨rfl, C1_add_id_max_plus_one _ _ "T" "A" 2024 rfl⟩

/-- C2: for every stored collection, `add_book` appends exactly one new
record at the end (prior records unchanged and in order, length plus one)
carrying the given title, author and year and the default status, saves the
result, and returns the created record. -/
theorem C2_add_appends (fs : FileContents) (books : List Book)
    (title author : String) (year : Int) (h : load_library fs = .ok books) :
    ∃ nb fs', add_book title author year fs = .ok (nb, fs') ∧
      nb.title = title ∧ nb.author = author ∧ nb.year = year ∧
      nb.status = defaultStatus ∧ fs' = save_library (books ++ [nb]) ∧
      load_library fs' = .ok (books ++ [nb]) ∧
      (books ++ [nb]).length = books.length + 1 :=
  ⟨newBook title author year books, _, add_book_eq h title author year,
    rfl, rfl, rfl, rfl, rfl, load_save _, by simp⟩

/-- Witness for C2 at the empty collection. -/
theorem C2_add_appends_witness :
    load_library (save_library []) = .ok [] ∧
    (∃ nb fs', add_book "T" "A" 2024 (save_library []) = .ok (nb, fs') ∧
      nb.title = "T" ∧ nb.author = "A" ∧ nb.year = 2024 ∧
      nb.status = defaultStatus ∧ fs' = save_library ([] ++ [nb]) ∧
      load_library fs' = .ok ([] ++ [nb]) ∧
      (([] : List Book) ++ [nb]).length = ([] : List Book).length + 1) :=
  ⟨rfl, C2_add_appends _ [] "T" "A" 2024 rfl⟩

/-- C3: for every stored collection with unique ids, `remove_book` on an
existing id deletes exactly that one record (length down by one, every other
record unchanged and in order) and saves; on a missing id it returns `false`
and performs no save, leaving the file state identical. -/
theorem C3_remove_correct (fs : FileContents) (books : List Book) (i : Int)
    (h : load_library fs = .ok books) (hnd : (books.map Book.id).Nodup) :
    ((∃ b ∈ books, b.id = i) →
      ∃ l1 b0 l2, books = l1 ++ b0 :: l2 ∧ b0.id = i ∧
        remove_book i fs = .ok (true, save_library (l1 ++ l2)) ∧
        load_library (save_library (l1 ++ l2)) = .ok (l1 ++ l2) ∧
        (l1 ++ l2).length + 1 = books.length) ∧
    ((∀ b ∈ books, b.id ≠ i) → remove_book i fs = .ok (false, fs)) := by
  constructor
  · rintro ⟨b0, hb0, hid⟩
    obtain ⟨l1, l2, rfl⟩ := List.append_of_mem hb0
    obtain ⟨h1, h2⟩ := nodup_ids_split hnd
    refine ⟨l1, b0, l2, rfl, hid, ?_, load_save _, ?_⟩
    · exact remove_book_found h (fun b hb heq => h1 b hb (heq.trans hid.symm))
        (fun b hb heq => h2 b hb (heq.trans hid.symm)) hid
    · simp only [List.length_append, List.length_cons]
      omega
  · intro hnone
    exact remove_book_not_found h hnone

/-- Witness for C3 at a two-element collection, removing id `1` (present)
and id `7` (absent). -/
theorem C3_remove_correct_witness :
    load_library (save_library [⟨1, "A", "AA", 2000, defaultStatus⟩,
        ⟨2, "B", "BB", 2001, defaultStatus⟩]) =
      .ok [⟨1, "A", "AA", 2000, defaultStatus⟩, ⟨2, "B", "BB", 2001, defaultStatus⟩] ∧
    (([⟨1, "A", "AA", 2000, defaultStatus⟩, ⟨2, "B", "BB", 2001, defaultStatus⟩].map
        Book.id).Nodup) ∧
    (∃ b ∈ ([⟨1, "A", "AA", 2000, defaultStatus⟩,
        ⟨2, "B", "BB", 2001, defaultStatus⟩] : List Book), b.id = 1) ∧
    (∃ l1 b0 l2,
      ([⟨1, "A", "AA", 2000, defaultStatus⟩,
        ⟨2, "B", "BB", 2001, defaultStatus⟩] : List Book) = l1 ++ b0 :: l2 ∧ b0.id = 1 ∧
      remove_book 1 (save_library [⟨1, "A", "AA", 2000, defaultStatus⟩,
        ⟨2, "B", "BB", 2001, defaultStatus⟩]) = .ok (true, save_library (l1 ++ l2)) ∧
      load_library (save_library (l1 ++ l2)) = .ok (l1 ++ l2) ∧
      (l1 ++ l2).length + 1 =
        ([⟨1, "A", "AA", 2000, defaultStatus⟩,
          ⟨2, "B", "BB", 2001, defaultStatus⟩] : List Book).length) ∧
    remove_book 7 (save_library [⟨1, "A", "AA", 2000, defaultStatus⟩,
        ⟨2, "B", "BB", 2001, defaultStatus⟩]) =
      .ok (false, save_library [⟨1, "A", "AA", 2000, defaultStatus⟩,
        ⟨2, "B", "BB", 2001, defaultStatus⟩]) :=
  ⟨rfl, by decide, ⟨⟨1, "A", "AA", 2000, defaultStatus⟩, by decide, rfl⟩,
    (C3_remove_correct
      (save_library [⟨1, "A", "AA", 2000, defaultStatus⟩, ⟨2, "B", "BB", 2001, defaultStatus⟩])
      [⟨1, "A", "AA", 2000, defaultStatus⟩, ⟨2, "B", "BB", 2001, defaultStatus⟩] 1 rfl
      (by decide)).1 ⟨⟨1, "A", "AA", 2000, defaultStatus⟩, by decide, rfl⟩,
    (C3_remove_correct
      (save_library [⟨1, "A", "AA", 2000, defaultStatus⟩, ⟨2, "B", "BB", 2001, defaultStatus⟩])
      [⟨1, "A", "AA", 2000, defaultStatus⟩, ⟨2, "B", "BB", 2001, defaultStatus⟩] 7 rfl
      (by decide)).2 (by decide)⟩

/-- C4: `update_book_status` validates the status against the two-value
enumeration before any load (an invalid status errors on every file state,
even an unreadable one, and no save happens, so the stored collection is
unchanged); with a valid status it updates the first matching record and
saves, returning `true`, or returns `false` with no save when no record
matches. -/
theorem C4_update_status_validation (i : Int) (st : String) :
    ((st ≠ defaultStatus ∧ st ≠ checkedOutStatus) →
      ∀ fs, update_book_status i st fs = .error .invalidStatus) ∧
    ((st = defaultStatus ∨ st = checkedOutStatus) →
      ∀ fs books l1 b0 l2, load_library fs = .ok books →
        books = l1 ++ b0 :: l2 → (∀ b ∈ l1, b.id ≠ i) → b0.id = i →
        update_book_status i st fs =
          .ok (true, save_library (l1 ++ { b0 with status := st } :: l2))) ∧
    ((st = defaultStatus ∨ st = checkedOutStatus) →
      ∀ fs books, load_library fs = .ok books → (∀ b ∈ books, b.id ≠ i) →
        update_book_status i st fs = .ok (false, fs)) := by
  refine ⟨fun hne fs => update_book_status_invalid hne.1 hne.2, ?_, ?_⟩
  · rintro hv fs books l1 b0 l2 h rfl h1 hid
    exact update_book_status_found hv h h1 hid
  · intro hv fs books h hnone
    exact update_book_status_not_found hv h hnone

/-- Witness for C4: an invalid status errors even on an unreadable file; a
valid status updates an existing record and saves; a valid status on a
missing id returns `false` with the file untouched. -/
theorem C4_update_status_validation_witness :
    update_book_status 1 "bogus" .ioError = .error .invalidStatus ∧
    update_book_status 1 checkedOutStatus
        (save_library [⟨1, "A", "AA", 2000, defaultStatus⟩]) =
      .ok (true, save_library ([] ++ ⟨1, "A", "AA", 2000, checkedOutStatus⟩ :: [])) ∧
    update_book_status 2 checkedOutStatus
        (save_library [⟨1, "A", "AA", 2000, defaultStatus⟩]) =
      .ok (false, save_library [⟨1, "A", "AA", 2000, defaultStatus⟩]) :=
  ⟨(C4_update_status_validation 1 "bogus").1 ⟨by decide, by decide⟩ _,
    (C4_update_status_validation 1 checkedOutStatus).2.1 (Or.inr rfl)
      (save_library [⟨1, "A", "AA", 2000, defaultStatus⟩])
      [⟨1, "A", "AA", 2000, defaultStatus⟩] [] ⟨1, "A", "AA", 2000, defaultStatus⟩ []
      rfl rfl (by decide) rfl,
    (C4_update_status_validation 2 checkedOutStatus).2.2 (Or.inr rfl)
      (save_library [⟨1, "A", "AA", 2000, defaultStatus⟩])
      [⟨1, "A", "AA", 2000, defaultStatus⟩] rfl (by decide)⟩

/-- C5 counterexample: the claim says the year filter is exact equality
whenever a year is provided, but Python truthiness skips the filter for a
provided year of `0`: searching with `year = 0` returns a record whose year
is `2022`. -/
theorem C5_search_counterexample :
    search_books (save_library [⟨1, "Book One", "Author One", 2022, defaultStatus⟩])
        none none (some 0) =
      .ok [⟨1, "Book One", "Author One", 2022, defaultStatus⟩] ∧
    (⟨1, "Book One", "Author One", 2022, defaultStatus⟩ : Book).year ≠ 0 :=
  ⟨rfl, by decide⟩

/-- C5 (amended): `search_books` returns exactly the records satisfying all
truthy filters conjunctively — case-insensitive substring on title and
author when provided and non-empty, exact equality on year when provided
and non-zero (a zero year, like an empty string, is Python-falsy and is not
applied) — in original stored order, with no save performed. -/
theorem C5_search_conjunctive (fs : FileContents) (books : List Book)
    (title author : Option String) (year : Option Int)
    (h : load_library fs = .ok books) :
    search_books fs title author year =
      .ok (books.filter (fun b =>
        matchesTitle title b && matchesAuthor author b && matchesYear year b)) :=
  search_books_eq h title author year

/-- Witness for C5 (amended) on the spec's two-record example. -/
theorem C5_search_conjunctive_witness :
    load_library (save_library [⟨1, "Book One", "Author One", 2022, defaultStatus⟩,
        ⟨2, "Book Two", "Author One", 2023, defaultStatus⟩]) =
      .ok [⟨1, "Book One", "Author One", 2022, defaultStatus⟩,
        ⟨2, "Book Two", "Author One", 2023, defaultStatus⟩] ∧
    search_books (save_library [⟨1, "Book One", "Author One", 2022, defaultStatus⟩,
        ⟨2, "Book Two", "Author One", 2023, defaultStatus⟩]) (some "Book One") none none =
      .ok (([⟨1, "Book One", "Author One", 2022, defaultStatus⟩,
        ⟨2, "Book Two", "Author One", 2023, defaultStatus⟩] : List Book).filter (fun b =>
          matchesTitle (some "Book One") b && matchesAuthor none b && matchesYear none b)) :=
  ⟨rfl, C5_search_conjunctive _ _ (some "Book One") none none rfl⟩

/-- C6: a missing storage file and one whose contents are not valid JSON
both load as the empty collection; any other I/O failure (e.g. permission
denied) propagates as the storage error. -/
theorem C6_load_missing_or_invalid :
    load_library .missing = .ok [] ∧
    load_library .jsonInvalid = .ok [] ∧
    load_library .ioError = .error .storageError :=
  ⟨rfl, rfl, rfl⟩

/-- C7: id uniqueness is an invariant — every operation preserves pairwise
distinctness of ids, and every collection reachable from the empty one by a
sequence of add/remove/update-status actions has pairwise distinct ids. -/
theorem C7_id_uniqueness_invariant :
    (∀ (op : LibOp) (fs : FileContents) (books : List Book),
      load_library fs = .ok books → (books.map Book.id).Nodup →
      ∃ books', load_library (applyOp op fs) = .ok books' ∧
        (books'.map Book.id).Nodup) ∧
    (∀ ops : List LibOp, ∃ books,
      load_library (runOps ops (save_library [])) = .ok books ∧
      (books.map Book.id).Nodup) :=
  ⟨fun op _ _ h hn => applyOp_nodup op h hn,
    fun ops => runOps_ok_nodup ops (load_save []) (by simp)⟩

/-- Witness for C7: one preserved step on a concrete state, and one concrete
reachable state. -/
theorem C7_id_uniqueness_invariant_witness :
    (∃ books', load_library (applyOp (.add "T" "A" 2024)
        (save_library [⟨3, "x", "y", 1999, defaultStatus⟩])) = .ok books' ∧
      (books'.map Book.id).Nodup) ∧
    (∃ books, load_library (runOps [.add "T" "A" 2024, .add "U" "B" 2025, .remove 1]
        (save_library [])) = .ok books ∧ (books.map Book.id).Nodup) :=
  ⟨C7_id_uniqueness_invariant.1 _ _ [⟨3, "x", "y", 1999, defaultStatus⟩] rfl (by decide),
    C7_id_uniqueness_invariant.2 _⟩

/-- C8 counterexample: ids of removed records are reused.  Starting from the
empty collection: two adds assign ids `1` and `2`; removing id `2` and
adding again assigns id `2` a second time, to a different book — so an id
assigned to a since-removed record is assigned again by a later add. -/
theorem C8_id_reuse_counterexample :
    load_library (runOps [.add "A" "AA" 2000, .add "B" "BB" 2001] (save_library [])) =
      .ok [⟨1, "A", "AA", 2000, defaultStatus⟩, ⟨2, "B", "BB", 2001, defaultStatus⟩] ∧
    load_library (runOps [.add "A" "AA" 2000, .add "B" "BB" 2001, .remove 2]
        (save_library [])) =
      .ok [⟨1, "A", "AA", 2000, defaultStatus⟩] ∧
    load_library (runOps [.add "A" "AA" 2000, .add "B" "BB" 2001, .remove 2,
        .add "C" "CC" 2002] (save_library [])) =
      .ok [⟨1, "A", "AA", 2000, defaultStatus⟩, ⟨2, "C", "CC", 2002, defaultStatus⟩] :=
  ⟨rfl, rfl, rfl⟩

/-- C8 (amended): after any sequence of operations from the empty
collection, an id assigned by `add_book` is strictly greater than every id
currently in the collection (so it never collides with a live record), but
the id of a record removed earlier can be assigned again once every larger
id has also been removed — gaps are permitted and the ids of removed
records are only guaranteed distinct from the ids still present. -/
theorem C8_new_id_above_current (ops : List LibOp) (title author : String) (year : Int) :
    ∃ books nb fs',
      load_library (runOps ops (save_library [])) = .ok books ∧
      add_book title author year (runOps ops (save_library [])) = .ok (nb, fs') ∧
      ∀ b ∈ books, b.id < nb.id := by
  obtain ⟨books, h, _⟩ := runOps_ok_nodup ops (load_save []) (by simp)
  exact ⟨books, _, _, h, add_book_eq h title author year,
    fun b hb => id_lt_new_id hb⟩

/-- C9: serialization round trip — decoding the persistable form of any
record yields the original record, with the integer id and year
reconstructed from their string encodings. -/
theorem C9_serialization_roundtrip (b : Book) :
    Book.from_dict (Book.to_dict b) = some b :=
  from_dict_to_dict b

/-- C10: frame condition for a successful status update — only the matched
record's status changes; its id, title, author and year are untouched,
every other record is unchanged, and the collection's length and order are
preserved. -/
theorem C10_update_status_frame (fs : FileContents) (books l1 l2 : List Book)
    (b0 : Book) (i : Int) (st : String)
    (hv : st = defaultStatus ∨ st = checkedOutStatus)
    (h : load_library fs = .ok books) (hnd : (books.map Book.id).Nodup)
    (hsplit : books = l1 ++ b0 :: l2) (hid : b0.id = i) :
    ∃ fs' b1, update_book_status i st fs = .ok (true, fs') ∧
      load_library fs' = .ok (l1 ++ b1 :: l2) ∧
      b1.id = b0.id ∧ b1.title = b0.title ∧ b1.author = b0.author ∧
      b1.year = b0.year ∧ b1.status = st ∧
      (l1 ++ b1 :: l2).length = books.length := by
  subst hsplit
  obtain ⟨h1, _⟩ := nodup_ids_split hnd
  exact ⟨_, { b0 with status := st },
    update_book_status_found hv h (fun b hb heq => h1 b hb (heq.trans hid.symm)) hid,
    load_save _, rfl, rfl, rfl, rfl, rfl, by simp⟩

/-- Witness for C10 on a concrete two-record collection, checking out the
first record. -/
theorem C10_update_status_frame_witness :
    (([⟨1, "A", "AA", 2000, defaultStatus⟩, ⟨2, "B", "BB", 2001, defaultStatus⟩].map
        Book.id).Nodup) ∧
    (∃ fs' b1, update_book_status 1 checkedOutStatus
        (save_library [⟨1, "A", "AA", 2000, defaultStatus⟩,
          ⟨2, "B", "BB", 2001, defaultStatus⟩]) = .ok (true, fs') ∧
      load_library fs' = .ok ([] ++ b1 :: [⟨2, "B", "BB", 2001, defaultStatus⟩]) ∧
      b1.id = (⟨1, "A", "AA", 2000, defaultStatus⟩ : Book).id ∧
      b1.title = (⟨1, "A", "AA", 2000, defaultStatus⟩ : Book).title ∧
      b1.author = (⟨1, "A", "AA", 2000, defaultStatus⟩ : Book).author ∧
      b1.year = (⟨1, "A", "AA", 2000, defaultStatus⟩ : Book).year ∧
      b1.status = checkedOutStatus ∧
      ([] ++ b1 :: [⟨2, "B", "BB", 2001, defaultStatus⟩]).length =
        ([⟨1, "A", "AA", 2000, defaultStatus⟩,
          ⟨2, "B", "BB", 2001, defaultStatus⟩] : List Book).length) :=
  ⟨by decide,
    C10_update_status_frame _ _ [] [⟨2, "B", "BB", 2001, defaultStatus⟩] _ 1
      checkedOutStatus (Or.inr rfl) rfl (by decide) rfl rfl⟩

end LibraryManager
